import Mathlib

/-!
Verification of the TestCafe configuration resolver
(`src/configuration/testcafe-configuration.ts`).

The file shallowly embeds the option-resolution pipeline: a `JSVal` type for
the JavaScript values the configuration code observes, an association-list
option store, and the resolver's methods translated one by one from the
source.  The base `Configuration` class, the option-name catalog, the default
value catalog and the small string utilities live outside the provided source
tree; every definition standing in for one of them carries a doc comment
starting with `Modelled from the spec:` and follows the specification's
wording for that collaborator.  External collaborators (browser provider
pool, SSL/grep/filter/reporter helpers, path resolution) are abstracted as an
environment `Env` of pure functions, as the specification itself treats them
as black boxes.
-/

namespace Testcafe

/-- A JavaScript runtime value, as far as the configuration code observes it.
Objects and arrays are finite, insertion-ordered; `fn` stands for an opaque
function value (e.g. a compiled filter predicate). Numbers are modelled as
integers: the configuration options exercised here are integral and the only
numeric fact used is comparison with `0` for truthiness. -/
inductive JSVal where
  | undefined
  | null
  | bool (b : Bool)
  | num (n : Int)
  | str (s : String)
  | arr (elems : List JSVal)
  | obj (fields : List (String × JSVal))
  | fn (tag : Nat)

/-- JavaScript truthiness: `undefined`, `null`, `false`, `0` and `""` are
falsy, every other value (including empty arrays and objects) is truthy. -/
def JSVal.truthy : JSVal → Bool
  | .undefined => false
  | .null => false
  | .bool b => b
  | .num n => n != 0
  | .str s => s != ""
  | .arr _ => true
  | .obj _ => true
  | .fn _ => true

/-- The `=== void 0` test. -/
def JSVal.isUndefined : JSVal → Bool
  | .undefined => true
  | _ => false

/-- Property read on an ordered field list; a missing key reads as
`undefined`, exactly as in JavaScript. -/
def getFieldList : List (String × JSVal) → String → JSVal
  | [], _ => .undefined
  | (k0, v0) :: rest, k => if k0 == k then v0 else getFieldList rest k

/-- Property write on an ordered field list: an existing key keeps its
position, a new key is appended, as JavaScript property assignment does. -/
def setFieldList : List (String × JSVal) → String → JSVal → List (String × JSVal)
  | [], k, v => [(k, v)]
  | (k0, v0) :: rest, k, v =>
    if k0 == k then (k0, v) :: rest else (k0, v0) :: setFieldList rest k v

/-- Property read on a value; non-objects have no readable own properties in
the fragment the configuration code exercises. -/
def JSVal.getField : JSVal → String → JSVal
  | .obj fs, k => getFieldList fs k
  | _, _ => .undefined

/-- Property assignment on a value; assigning a property of a non-object is a
silent no-op (the code only ever does this on option values that are
objects). -/
def JSVal.setObjField : JSVal → String → JSVal → JSVal
  | .obj fs, k, v => .obj (setFieldList fs k v)
  | other, _, _ => other

/-- The own enumerable fields of a value; non-objects (in particular
`undefined`, which is what a missing `typescript` entry reads as) contribute
no fields, matching how `Object.assign` treats them as sources. -/
def JSVal.objFields : JSVal → List (String × JSVal)
  | .obj fs => fs
  | _ => []

/-- Semantics of `Object.assign(target, source)`: copy the source's fields into the target
left to right; source keys override target keys, new keys are appended. -/
def objAssign (target : List (String × JSVal)) (source : List (String × JSVal)) :
    List (String × JSVal) :=
  source.foldl (fun t kv => setFieldList t kv.1 kv.2) target

/-- lodash `castArray` (also the `Array.isArray ? [...] : [value]` idiom of
`_getBrowserInfo`): an array stays itself, anything else becomes a
one-element array. -/
def castArray : JSVal → List JSVal
  | .arr xs => xs
  | v => [v]

/-- Provenance of an option value (`option-source.ts`): defaults, the
configuration file, or directly supplied input. -/
inductive OptionSource where
  | Default
  | Configuration
  | Input
deriving DecidableEq, Repr

/-- One entry of the option store: a value plus its provenance. -/
structure ConfigOption where
  value : JSVal
  source : OptionSource

/-- The option store: an insertion-ordered mapping from option name to
option. -/
abbrev Options := List (String × ConfigOption)

/-- Lookup of an option by name. -/
def lookupOpt : Options → String → Option ConfigOption
  | [], _ => none
  | (k0, o0) :: rest, k => if k0 == k then some o0 else lookupOpt rest k

/-- Store an option under a name: an existing entry is replaced in place, a
new one is appended. -/
def setOpt : Options → String → ConfigOption → Options
  | [], k, o => [(k, o)]
  | (k0, o0) :: rest, k, o =>
    if k0 == k then (k0, o) :: rest else (k0, o0) :: setOpt rest k o

/-- Errors surfaced by the resolver: the `GeneralError` raised for a missing
explicitly-named configuration file (carrying the offending path, as
`RUNTIME_ERRORS.cannotFindTestcafeConfigurationFile` renders it), and opaque
errors propagated unchanged from external collaborators such as the browser
provider pool. -/
inductive JSError where
  | cannotFindConfigurationFile (filePath : String)
  | externalError (message : String)
deriving DecidableEq, Repr

/-- The external collaborators consumed as black boxes: config-file parsing,
SSL option resolution, grep-option preprocessing, filter compilation,
reporter preparation, cwd-relative path resolution and the browser provider
pool.  Per-specifier browser resolution may fail; each successful resolution
yields the (possibly several) concrete descriptors of one specifier. -/
structure Env where
  readConfigFile : String → JSVal
  getSSLOptions : JSVal → JSVal
  getGrepOptions : String → JSVal → JSVal
  getFilterFn : JSVal → JSVal
  prepareReporters : List JSVal → JSVal
  resolvePathRelativelyCwd : String → String
  getBrowserInfo : JSVal → Except JSError (List JSVal)

def BASE_CONFIGURATION_FILENAME : String := ".testcaferc"

/-- Modelled from the spec: `CONFIGURATION_EXTENSIONS` comes from
`src/configuration/formats.ts`, which is not in the provided sources; the
spec fixes only that there is a fixed, ordered list of recognized
extensions. -/
def CONFIGURATION_EXTENSIONS : List String := [".js", ".cjs", ".json"]

def CONFIGURATION_FILENAMES : List String :=
  CONFIGURATION_EXTENSIONS.map (fun e => BASE_CONFIGURATION_FILENAME ++ e)

def DEFAULT_SCREENSHOTS_DIRECTORY : String := "screenshots"

/-- Modelled from the spec: `DEFAULT_SCREENSHOT_THUMBNAILS` comes from
`default-values.ts` (not in the provided sources); the spec calls it "the
default thumbnail flag". -/
def DEFAULT_SCREENSHOT_THUMBNAILS : JSVal := .bool true

/-- Modelled from the spec: `getDefaultCompilerOptions` comes from
`default-values.ts` (not in the provided sources); the spec only requires a
compiler-options entry to exist, so the default is modelled as the empty
mapping from compiler name to options. -/
def getDefaultCompilerOptions : JSVal := .obj []

/-- The general flag option names (`OPTION_FLAG_NAMES`); the string values of
the `OPTION_NAMES` catalog (not in the provided sources) are the camel-case
option names themselves. -/
def OPTION_FLAG_NAMES : List String :=
  ["skipJsErrors", "debugMode", "debugOnFail", "skipUncaughtErrors",
   "stopOnFirstFail", "takeScreenshotsOnFails", "disablePageCaching",
   "disablePageReloads", "disableScreenshots", "disableMultipleWindows"]

/-- The init-only flag option names (`OPTION_INIT_FLAG_NAMES`). -/
def OPTION_INIT_FLAG_NAMES : List String :=
  ["developmentMode", "retryTestPages", "cache", "disableHttp2", "proxyless"]

/-- The resolver's state: the candidate configuration-file paths picked by
the constructor, the explicit-path flag, the option store, the override
record, and the console warnings emitted so far. -/
structure TestCafeConfiguration where
  filePaths : List String
  isExplicitConfig : Bool
  options : Options
  overriddenOptions : List String
  warnings : List String

/-- The constructor: `super(configFile || CONFIGURATION_FILENAMES)` and
`this._isExplicitConfig = !!configFile`. -/
def TestCafeConfiguration.create (configFile : String) : TestCafeConfiguration :=
  { filePaths := if configFile.isEmpty then CONFIGURATION_FILENAMES else [configFile]
    isExplicitConfig := !configFile.isEmpty
    options := []
    overriddenOptions := []
    warnings := [] }

/-- Modelled from the spec: the base `Configuration` store's `_ensureOption`
primitive (the base class is not in the provided sources) — return the named
option, creating it with the given value and source when absent. -/
def ensureOption (opts : Options) (name : String) (defaultValue : JSVal)
    (source : OptionSource) : Options × ConfigOption :=
  match lookupOpt opts name with
  | some o => (opts, o)
  | none =>
    let o : ConfigOption := { value := defaultValue, source := source }
    (setOpt opts name o, o)

/-- Modelled from the spec: the base store's `_ensureOptionWithValue` — fill
a default for a still-unset option (absent, or present with an undefined
value), leaving any defined value untouched. -/
def ensureOptionWithValue (opts : Options) (name : String) (value : JSVal)
    (source : OptionSource) : Options :=
  let p := ensureOption opts name value source
  if p.2.value.isUndefined then setOpt p.1 name { value := value, source := source } else p.1

/-- Modelled from the spec: the base store's `getOption` read — the named
option's value, or `undefined` when the option is absent. -/
def getOption (opts : Options) (name : String) : JSVal :=
  match lookupOpt opts name with
  | some o => o.value
  | none => .undefined

/-- Modelled from the spec: the base store's `mergeOptions` (§4.3) — for each
key of the runtime bag, set the entry's value with source `Input`
(DirectlySet); before overwriting, record the key in the override record,
once per merge cycle, when the prior source was strictly lower precedence and
its value was explicitly established (Configuration-file source, defined
value). -/
def mergeOptions (cfg : TestCafeConfiguration) (bag : List (String × JSVal)) :
    TestCafeConfiguration :=
  bag.foldl (fun cfg kv =>
    let shouldRecord :=
      match lookupOpt cfg.options kv.1 with
      | some o => o.source == OptionSource.Configuration && !o.value.isUndefined
          && !(cfg.overriddenOptions.contains kv.1)
      | none => false
    { cfg with
      options := setOpt cfg.options kv.1 { value := kv.2, source := OptionSource.Input }
      overriddenOptions :=
        if shouldRecord then cfg.overriddenOptions ++ [kv.1] else cfg.overriddenOptions })
    cfg

/-- Modelled from the spec: the base class's static `_fromObj` — parse loaded
configuration-file content into an option store whose every entry has
Configuration-file source. -/
def fromObj (v : JSVal) : Options :=
  v.objFields.map
    (fun kv => (kv.1, ({ value := kv.2, source := OptionSource.Configuration } : ConfigOption)))

/-- The `!!option.value` double-negation coercion of `_prepareFlag`. -/
def coerceFlag (v : JSVal) : JSVal := .bool v.truthy

/-- Method `_prepareFlag`: ensure the option exists (undefined value,
Configuration source when created) and coerce its value to a strict
boolean. -/
def prepareFlag (opts : Options) (name : String) : Options :=
  let p := ensureOption opts name .undefined OptionSource.Configuration
  setOpt p.1 name { p.2 with value := coerceFlag p.2.value }

/-- Method `_prepareFlags`: coerce every general flag. -/
def prepareFlags (opts : Options) : Options :=
  OPTION_FLAG_NAMES.foldl prepareFlag opts

/-- Method `_prepareInitFlags`: coerce every init-only flag. -/
def prepareInitFlags (opts : Options) : Options :=
  OPTION_INIT_FLAG_NAMES.foldl prepareFlag opts

/-- Method `_prepareSslOptions`: when an ssl option is present, replace its value by
the externally resolved SSL options. -/
def prepareSslOptions (ext : Env) (opts : Options) : Options :=
  match lookupOpt opts "ssl" with
  | none => opts
  | some sslOptions =>
    setOpt opts "ssl" { sslOptions with value := ext.getSSLOptions sslOptions.value }

/-- Method `_prepareFilterFn`: ensure a filter option (created with value `null` and
Configuration source when absent); a falsy value is left untouched, otherwise
the grep sub-fields are preprocessed and the whole value is replaced by the
compiled filter predicate. -/
def prepareFilterFn (ext : Env) (opts : Options) : Options :=
  let p := ensureOption opts "filter" .null OptionSource.Configuration
  if !p.2.value.truthy then p.1
  else
    let v := p.2.value
    let v := if (v.getField "testGrep").truthy then
        v.setObjField "testGrep" (ext.getGrepOptions "filter.testGrep" (v.getField "testGrep"))
      else v
    let v := if (v.getField "fixtureGrep").truthy then
        v.setObjField "fixtureGrep"
          (ext.getGrepOptions "filter.fixtureGrep" (v.getField "fixtureGrep"))
      else v
    setOpt p.1 "filter" { p.2 with value := ext.getFilterFn v }

/-- Modelled from the spec: the base store's `_ensureArrayOption` (§4.2 step
4) — an absent option is left unset; an existing non-array value is wrapped
in a one-element array; an existing array is unchanged. -/
def ensureArrayOption (opts : Options) (name : String) : Options :=
  match lookupOpt opts name with
  | none => opts
  | some o =>
    match o.value with
    | .arr _ => opts
    | v => setOpt opts name { o with value := .arr [v] }

/-- Method `_prepareReporters`: when a reporter option is present, cast its value to
an array and replace it with the externally prepared reporters. -/
def prepareReportersStep (ext : Env) (opts : Options) : Options :=
  match lookupOpt opts "reporter" with
  | none => opts
  | some reporterOption =>
    setOpt opts "reporter"
      { reporterOption with value := ext.prepareReporters (castArray reporterOption.value) }

/-- Method `_normalizeOptionsAfterLoad`: ssl, init flags, filter, array shape for
src / browsers / clientScripts, reporters — in that order. -/
def normalizeOptionsAfterLoad (ext : Env) (opts : Options) : Options :=
  prepareReportersStep ext
    (ensureArrayOption
      (ensureArrayOption
        (ensureArrayOption
          (prepareFilterFn ext (prepareInitFlags (prepareSslOptions ext opts)))
          "src")
        "browsers")
      "clientScripts")

/-- Method `_ensureScreenshotOptions`: ensure a screenshots option (empty object
default); fill `path` with the cwd-resolved default directory when the
current `path` is falsy, and `thumbnails` with the default flag when the
current `thumbnails` is undefined. -/
def ensureScreenshotOptions (ext : Env) (opts : Options) : Options :=
  let path := ext.resolvePathRelativelyCwd DEFAULT_SCREENSHOTS_DIRECTORY
  let p := ensureOption opts "screenshots" (.obj []) OptionSource.Configuration
  let screenshots := p.2.value
  let screenshots :=
    if !(screenshots.getField "path").truthy then screenshots.setObjField "path" (.str path)
    else screenshots
  let screenshots :=
    if (screenshots.getField "thumbnails").isUndefined then
      screenshots.setObjField "thumbnails" DEFAULT_SCREENSHOT_THUMBNAILS
    else screenshots
  setOpt p.1 "screenshots" { p.2 with value := screenshots }

/-- Method `_setDefaultValues`; the concrete default constants come from
`default-values.ts`, which is not in the provided sources, and are modelled
from the spec's Default Catalog (their exact numeric values do not matter to
any claim). -/
def setDefaultValues (ext : Env) (opts : Options) : Options :=
  let opts := ensureOptionWithValue opts "selectorTimeout" (.num 10000) OptionSource.Configuration
  let opts := ensureOptionWithValue opts "assertionTimeout" (.num 3000) OptionSource.Configuration
  let opts := ensureOptionWithValue opts "pageLoadTimeout" (.num 3000) OptionSource.Configuration
  let opts := ensureOptionWithValue opts "speed" (.num 1) OptionSource.Configuration
  let opts := ensureOptionWithValue opts "appInitDelay" (.num 1000) OptionSource.Configuration
  let opts := ensureOptionWithValue opts "concurrency" (.num 1) OptionSource.Configuration
  let opts := ensureOptionWithValue opts "src" (.arr []) OptionSource.Configuration
  let opts := ensureOptionWithValue opts "developmentMode" (.bool false) OptionSource.Configuration
  let opts := ensureOptionWithValue opts "retryTestPages" (.bool false) OptionSource.Configuration
  let opts := ensureOptionWithValue opts "disableHttp2" (.bool false) OptionSource.Configuration
  let opts := ensureOptionWithValue opts "proxyless" (.bool false) OptionSource.Configuration
  ensureScreenshotOptions ext opts

/-- Method `_prepareCompilerOptions`: ensure a compiler-options entry (catalog
default when absent or falsy); when a tsConfigPath option is truthy, replace
the typescript entry by `Object.assign({ configPath }, existing)`. -/
def prepareCompilerOptions (opts : Options) : Options :=
  let p := ensureOption opts "compilerOptions" getDefaultCompilerOptions OptionSource.Configuration
  let value := if p.2.value.truthy then p.2.value else getDefaultCompilerOptions
  let tsConfigPath := getOption p.1 "tsConfigPath"
  let value :=
    if tsConfigPath.truthy then
      let typeScriptCompilerOptions :=
        objAssign [("configPath", tsConfigPath)] (value.getField "typescript").objFields
      value.setObjField "typescript" (.obj typeScriptCompilerOptions)
    else value
  setOpt p.1 "compilerOptions" { p.2 with value := value }

/-- Method `prepare`: general flags, defaults, compiler options. -/
def prepare (ext : Env) (opts : Options) : Options :=
  prepareCompilerOptions (setDefaultValues ext (prepareFlags opts))

/-- Semantics of `Promise.all(browsers.map(browser => browserProviderPool.getBrowserInfo(browser)))`:
resolve every specifier, failing the whole operation on the first failure. -/
def resolveAll (resolve : JSVal → Except JSError (List JSVal)) :
    List JSVal → Except JSError (List (List JSVal))
  | [] => .ok []
  | b :: bs =>
    match resolve b with
    | .error e => .error e
    | .ok l =>
      match resolveAll resolve bs with
      | .error e => .error e
      | .ok ls => .ok (l :: ls)

/-- Method `_getBrowserInfo`: a falsy browsers value resolves to the empty array;
otherwise each specifier of the (cast-to-array) value is resolved and the
per-specifier descriptor lists are flattened one level, in input order. -/
def getBrowserInfo (ext : Env) (browsersValue : JSVal) : Except JSError (List JSVal) :=
  if !browsersValue.truthy then .ok []
  else
    match resolveAll ext.getBrowserInfo (castArray browsersValue) with
    | .error e => .error e
    | .ok infos => .ok infos.flatten

/-- Method `asyncMergeOptions`: merge the (possibly absent) runtime bag, then, when
a browsers option is present, replace its value by the resolved browser
info. -/
def asyncMergeOptions (ext : Env) (cfg : TestCafeConfiguration)
    (options : Option (List (String × JSVal))) : Except JSError TestCafeConfiguration :=
  let bag := options.getD []
  let cfg := mergeOptions cfg bag
  match lookupOpt cfg.options "browsers" with
  | none => .ok cfg
  | some browsersOption =>
    match getBrowserInfo ext browsersOption.value with
    | .error e => .error e
    | .ok infos =>
      .ok { cfg with
        options := setOpt cfg.options "browsers" { browsersOption with value := .arr infos } }

/-- Method `_isConfigurationFileExists`: the base existence check (a plain
file-system lookup, modelled by membership in the list of existing paths),
strengthened by the override in the source to throw a
cannot-find-configuration-file error naming the path when the file is
missing and the path was explicit. -/
def isConfigurationFileExists (isExplicit : Bool) (fileSystem : List String)
    (filePath : String) : Except JSError Bool :=
  let fileExists := fileSystem.contains filePath
  if !fileExists && isExplicit then .error (.cannotFindConfigurationFile filePath)
  else .ok fileExists

/-- Modelled from the spec: the base class's configuration-file discovery —
walk the candidate paths in order and keep the first existing one, routing
each existence test through the (overridden) `_isConfigurationFileExists`. -/
def findExistingConfigFile (isExplicit : Bool) (fileSystem : List String) :
    List String → Except JSError (Option String)
  | [] => .ok none
  | p :: ps =>
    match isConfigurationFileExists isExplicit fileSystem p with
    | .error e => .error e
    | .ok true => .ok (some p)
    | .ok false => findExistingConfigFile isExplicit fileSystem ps

/-- Method `init`: base initialization and `_load` (modelled from the spec: find the
configuration file, and when one is found parse its content into an option
store with Configuration-file source), then the after-load normalization
sequence on the loaded store only, then the runtime merge. -/
def init (ext : Env) (fileSystem : List String) (cfg : TestCafeConfiguration)
    (options : Option (List (String × JSVal))) : Except JSError TestCafeConfiguration :=
  match findExistingConfigFile cfg.isExplicitConfig fileSystem cfg.filePaths with
  | .error e => .error e
  | .ok none => asyncMergeOptions ext cfg options
  | .ok (some p) =>
    asyncMergeOptions ext
      { cfg with options := normalizeOptionsAfterLoad ext (fromObj (ext.readConfigFile p)) }
      options

/-- Modelled from the spec: `getConcatenatedValuesString` from
`utils/string` (not in the provided sources) — the overridden names, each
quoted, comma-joined. -/
def getConcatenatedValuesString (values : List String) : String :=
  String.intercalate ", " (values.map (fun v => "\"" ++ v ++ "\""))

/-- Modelled from the spec: `getPluralSuffix` from `utils/string` — an "s"
exactly when more than one name is listed. -/
def getPluralSuffix (values : List String) : String :=
  if values.length > 1 then "s" else ""

/-- Modelled from the spec: the rendered
`WARNING_MESSAGES.configOptionsWereOverridden` template — one human-readable
message listing the overridden option names with the plural suffix. -/
def configOptionsWereOverriddenMessage (optionsStr optionsSuffix : String) : String :=
  "The " ++ optionsStr ++ " option" ++ optionsSuffix ++
    " from the configuration file will be ignored."

/-- Method `notifyAboutOverriddenOptions`: no-op on an empty override record;
otherwise emit one console warning listing the overridden names and clear the
record. -/
def notifyAboutOverriddenOptions (cfg : TestCafeConfiguration) : TestCafeConfiguration :=
  if cfg.overriddenOptions.isEmpty then cfg
  else
    let optionsStr := getConcatenatedValuesString cfg.overriddenOptions
    let optionsSuffix := getPluralSuffix cfg.overriddenOptions
    { cfg with
      warnings := cfg.warnings ++ [configOptionsWereOverriddenMessage optionsStr optionsSuffix]
      overriddenOptions := [] }

/-- A concrete environment used by the evaluation witnesses: identity-like
collaborators plus a browser provider resolving "chrome" to two descriptors,
"firefox" to one, and failing on "bad". -/
def env0 : Env :=
  { readConfigFile := fun _ => .obj [("skipJsErrors", .bool true)]
    getSSLOptions := fun v => v
    getGrepOptions := fun _ v => v
    getFilterFn := fun _ => .fn 0
    prepareReporters := fun l => .arr l
    resolvePathRelativelyCwd := fun p => "/cwd/" ++ p
    getBrowserInfo := fun v =>
      match v with
      | .str "chrome" => .ok [.str "chrome-desc-1", .str "chrome-desc-2"]
      | .str "firefox" => .ok [.str "firefox-desc"]
      | .str "bad" => .error (.externalError "cannot find the browser")
      | other => .ok [other] }

/-! ### Store and field lemmas -/

theorem lookupOpt_setOpt_self (opts : Options) (name : String) (o : ConfigOption) :
    lookupOpt (setOpt opts name o) name = some o := by
  induction opts with
  | nil => simp [setOpt, lookupOpt]
  | cons kv rest ih =>
    obtain ⟨k0, o0⟩ := kv
    by_cases h : k0 = name
    · simp [setOpt, lookupOpt, h]
    · simp [setOpt, lookupOpt, h, ih]

theorem lookupOpt_setOpt_ne (opts : Options) (name k : String) (o : ConfigOption)
    (h : k ≠ name) : lookupOpt (setOpt opts name o) k = lookupOpt opts k := by
  have hnk : name ≠ k := Ne.symm h
  induction opts with
  | nil => simp [setOpt, lookupOpt, hnk]
  | cons kv rest ih =>
    obtain ⟨k0, o0⟩ := kv
    by_cases h0 : k0 = name
    · subst h0; simp [setOpt, lookupOpt, hnk]
    · simp [setOpt, lookupOpt, h0, ih]

theorem isSome_lookupOpt_setOpt (opts : Options) (name k : String) (o : ConfigOption)
    (h : (lookupOpt opts k).isSome = true) :
    (lookupOpt (setOpt opts name o) k).isSome = true := by
  by_cases hk : k = name
  · subst hk; simp [lookupOpt_setOpt_self]
  · rwa [lookupOpt_setOpt_ne opts name k o hk]

theorem getFieldList_setFieldList_self (fs : List (String × JSVal)) (k : String) (v : JSVal) :
    getFieldList (setFieldList fs k v) k = v := by
  induction fs with
  | nil => simp [setFieldList, getFieldList]
  | cons kv rest ih =>
    obtain ⟨k0, v0⟩ := kv
    by_cases h : k0 = k
    · simp [setFieldList, getFieldList, h]
    · simp [setFieldList, getFieldList, h, ih]

theorem getFieldList_setFieldList_ne (fs : List (String × JSVal)) (k k' : String) (v : JSVal)
    (h : k' ≠ k) : getFieldList (setFieldList fs k v) k' = getFieldList fs k' := by
  have hnk : k ≠ k' := Ne.symm h
  induction fs with
  | nil => simp [setFieldList, getFieldList, hnk]
  | cons kv rest ih =>
    obtain ⟨k0, v0⟩ := kv
    by_cases h0 : k0 = k
    · subst h0; simp [setFieldList, getFieldList, hnk]
    · simp [setFieldList, getFieldList, h0, ih]

theorem getFieldList_objAssign_notMem :
    ∀ (source target : List (String × JSVal)) (k : String),
      k ∉ source.map Prod.fst →
      getFieldList (objAssign target source) k = getFieldList target k := by
  intro source
  induction source with
  | nil => intro target k _; rfl
  | cons kv rest ih =>
    intro target k hk
    simp only [List.map_cons, List.mem_cons] at hk
    push_neg at hk
    have hstep : objAssign target (kv :: rest) = objAssign (setFieldList target kv.1 kv.2) rest := rfl
    rw [hstep, ih _ k hk.2]
    exact getFieldList_setFieldList_ne target kv.1 k kv.2 hk.1

theorem getFieldList_objAssign_mem :
    ∀ (source target : List (String × JSVal)) (k : String) (v : JSVal),
      (source.map Prod.fst).Nodup → (k, v) ∈ source →
      getFieldList (objAssign target source) k = v := by
  intro source
  induction source with
  | nil => intro target k v _ hm; cases hm
  | cons kv rest ih =>
    intro target k v hnd hm
    have hstep : objAssign target (kv :: rest) = objAssign (setFieldList target kv.1 kv.2) rest := rfl
    simp only [List.map_cons, List.nodup_cons] at hnd
    rcases List.mem_cons.mp hm with heq | hmem
    · subst heq
      rw [hstep, getFieldList_objAssign_notMem rest _ k hnd.1,
        getFieldList_setFieldList_self]
    · rw [hstep, ih _ k v hnd.2 hmem]

/-! ### Resolution lemmas -/

theorem resolveAll_ok_of_forall₂ (resolve : JSVal → Except JSError (List JSVal)) :
    ∀ (xs : List JSVal) (ls : List (List JSVal)),
      List.Forall₂ (fun b l => resolve b = .ok l) xs ls →
      resolveAll resolve xs = .ok ls := by
  intro xs ls h
  induction h with
  | nil => rfl
  | @cons b l bs ls hb _ ih => simp [resolveAll, hb, ih]

theorem resolveAll_error_first (resolve : JSVal → Except JSError (List JSVal)) :
    ∀ (pre : List JSVal) (b : JSVal) (post : List JSVal) (e : JSError),
      (∀ x ∈ pre, ∃ l, resolve x = .ok l) → resolve b = .error e →
      resolveAll resolve (pre ++ b :: post) = .error e := by
  intro pre
  induction pre with
  | nil => intro b post e _ hb; simp [resolveAll, hb]
  | cons x xs ih =>
    intro b post e hpre hb
    obtain ⟨l, hl⟩ := hpre x (List.mem_cons_self x xs)
    have := ih b post e (fun y hy => hpre y (List.mem_cons_of_mem x hy)) hb
    simp [resolveAll, hl, this]

/-! ### Preservation lemmas for the after-load normalization steps -/

theorem lookupOpt_prepareFlag_ne (opts : Options) (name k : String) (h : k ≠ name) :
    lookupOpt (prepareFlag opts name) k = lookupOpt opts k := by
  unfold prepareFlag ensureOption
  cases heq : lookupOpt opts name with
  | none => simp [heq, lookupOpt_setOpt_ne _ name k _ h]
  | some o => simp [heq, lookupOpt_setOpt_ne _ name k _ h]

theorem lookupOpt_foldl_prepareFlag_notMem (names : List String) :
    ∀ (opts : Options) (k : String), k ∉ names →
      lookupOpt (names.foldl prepareFlag opts) k = lookupOpt opts k := by
  induction names with
  | nil => intro opts k _; rfl
  | cons n rest ih =>
    intro opts k hk
    simp only [List.mem_cons] at hk
    push_neg at hk
    rw [List.foldl_cons, ih _ k hk.2, lookupOpt_prepareFlag_ne opts n k hk.1]

theorem lookupOpt_prepareSslOptions_ne (ext : Env) (opts : Options) (k : String)
    (h : k ≠ "ssl") : lookupOpt (prepareSslOptions ext opts) k = lookupOpt opts k := by
  unfold prepareSslOptions
  cases heq : lookupOpt opts "ssl" with
  | none => rfl
  | some o => simp [lookupOpt_setOpt_ne _ "ssl" k _ h]

theorem lookupOpt_ensureArrayOption_ne (opts : Options) (name k : String) (h : k ≠ name) :
    lookupOpt (ensureArrayOption opts name) k = lookupOpt opts k := by
  unfold ensureArrayOption
  cases heq : lookupOpt opts name with
  | none => rfl
  | some o =>
    obtain ⟨v, s⟩ := o
    cases v <;> simp [lookupOpt_setOpt_ne _ name k _ h]

theorem lookupOpt_prepareReportersStep_ne (ext : Env) (opts : Options) (k : String)
    (h : k ≠ "reporter") :
    lookupOpt (prepareReportersStep ext opts) k = lookupOpt opts k := by
  unfold prepareReportersStep
  cases heq : lookupOpt opts "reporter" with
  | none => rfl
  | some o => simp [lookupOpt_setOpt_ne _ "reporter" k _ h]

theorem lookupOpt_prepareFilterFn_isSome (ext : Env) (opts : Options) :
    (lookupOpt (prepareFilterFn ext opts) "filter").isSome = true := by
  unfold prepareFilterFn ensureOption
  cases heq : lookupOpt opts "filter" with
  | none => simp [heq, JSVal.truthy, lookupOpt_setOpt_self]
  | some o =>
    by_cases h : o.value.truthy = true
    · simp [heq, h, lookupOpt_setOpt_self]
    · have h0 : o.value.truthy = false := by rwa [Bool.not_eq_true] at h
      simp [heq, h0]

theorem lookupOpt_prepareFilterFn_absent (ext : Env) (opts : Options)
    (h : lookupOpt opts "filter" = none) :
    lookupOpt (prepareFilterFn ext opts) "filter" =
      some { value := JSVal.null, source := OptionSource.Configuration } := by
  unfold prepareFilterFn ensureOption
  simp [h, JSVal.truthy, lookupOpt_setOpt_self]

/-! ## Claim theorems -/

/-- Claim C7, counterexample: the claim sends every raw value other than `0`,
`""`, `null` and `undefined` to `true`; the boolean `false` is such a value,
yet the double-negation coercion of `_prepareFlag` maps it to `false`. -/
theorem c7_counterexample :
    coerceFlag (JSVal.bool false) = JSVal.bool false ∧
    JSVal.bool false ≠ JSVal.bool true := by
  refine ⟨rfl, ?_⟩
  intro h
  injection h with h'
  exact Bool.noConfusion h'

/-- Claim C7, amended: flag coercion equals double negation and is
idempotent: `0`, the empty string, `null`, `undefined` and `false` coerce to
`false`; every other value coerces to `true`; and coercing an
already-boolean value yields the same boolean. -/
theorem c7_flag_coercion (v : JSVal) :
    coerceFlag (coerceFlag v) = coerceFlag v ∧
    (∀ b, coerceFlag (.bool b) = .bool b) ∧
    coerceFlag (.num 0) = .bool false ∧
    coerceFlag (.str "") = .bool false ∧
    coerceFlag .null = .bool false ∧
    coerceFlag .undefined = .bool false ∧
    (v ≠ .num 0 → v ≠ .str "" → v ≠ .null → v ≠ .undefined → v ≠ .bool false →
      coerceFlag v = .bool true) := by
  refine ⟨rfl, fun b => by cases b <;> rfl, rfl, rfl, rfl, rfl, ?_⟩
  intro h1 h2 h3 h4 h5
  cases v with
  | undefined => exact absurd rfl h4
  | null => exact absurd rfl h3
  | bool b =>
    cases b with
    | false => exact absurd rfl h5
    | true => rfl
  | num n =>
    have hn : n ≠ 0 := fun hh => h1 (by rw [hh])
    simp [coerceFlag, JSVal.truthy, hn]
  | str s =>
    have hs : s ≠ "" := fun hh => h2 (by rw [hh])
    simp [coerceFlag, JSVal.truthy, hs]
  | arr elems => rfl
  | obj fields => rfl
  | fn tag => rfl

/-- Claim C7, witness: the amended coercion evaluated at the (truthy) empty
array. -/
theorem c7_flag_coercion_witness :
    coerceFlag (JSVal.arr []) = JSVal.bool true :=
  (c7_flag_coercion (JSVal.arr [])).2.2.2.2.2.2
    (fun h => JSVal.noConfusion h) (fun h => JSVal.noConfusion h)
    (fun h => JSVal.noConfusion h) (fun h => JSVal.noConfusion h)
    (fun h => JSVal.noConfusion h)

/-- Claim C4: `notifyAboutOverriddenOptions` is a no-op on an empty override
record; on a non-empty record it emits exactly one message listing the
overridden option names, leaves the option store unchanged and empties the
record; draining twice equals draining once. -/
theorem c4_notify_drain (cfg : TestCafeConfiguration) :
    (cfg.overriddenOptions = [] → notifyAboutOverriddenOptions cfg = cfg) ∧
    (cfg.overriddenOptions ≠ [] →
      (notifyAboutOverriddenOptions cfg).overriddenOptions = [] ∧
      (notifyAboutOverriddenOptions cfg).warnings =
        cfg.warnings ++ [configOptionsWereOverriddenMessage
          (getConcatenatedValuesString cfg.overriddenOptions)
          (getPluralSuffix cfg.overriddenOptions)] ∧
      (notifyAboutOverriddenOptions cfg).options = cfg.options) ∧
    notifyAboutOverriddenOptions (notifyAboutOverriddenOptions cfg) =
      notifyAboutOverriddenOptions cfg := by
  by_cases h : cfg.overriddenOptions = []
  · have he : cfg.overriddenOptions.isEmpty = true := by simp [h]
    refine ⟨fun _ => ?_, fun hc => absurd h hc, ?_⟩ <;>
      simp [notifyAboutOverriddenOptions, he]
  · have he : cfg.overriddenOptions.isEmpty = false := by
      simpa [List.isEmpty_iff] using h
    refine ⟨fun hc => absurd hc h, fun _ => ?_, ?_⟩
    · simp [notifyAboutOverriddenOptions, he]
    · simp [notifyAboutOverriddenOptions, he]

/-- Claim C4, witness: drained at a state with one recorded override. -/
def c4cfg : TestCafeConfiguration :=
  { filePaths := CONFIGURATION_FILENAMES
    isExplicitConfig := false
    options := []
    overriddenOptions := ["speed"]
    warnings := [] }

theorem c4_notify_drain_witness :
    (notifyAboutOverriddenOptions c4cfg).overriddenOptions = [] ∧
    (notifyAboutOverriddenOptions c4cfg).warnings =
      c4cfg.warnings ++ [configOptionsWereOverriddenMessage
        (getConcatenatedValuesString c4cfg.overriddenOptions)
        (getPluralSuffix c4cfg.overriddenOptions)] ∧
    (notifyAboutOverriddenOptions c4cfg).options = c4cfg.options :=
  (c4_notify_drain c4cfg).2.1 (List.cons_ne_nil "speed" [])

/-- The state of the C2 counterexample: a browsers option whose value has
not yet been resolved. -/
def c2cfg : TestCafeConfiguration :=
  { filePaths := CONFIGURATION_FILENAMES
    isExplicitConfig := false
    options := [("browsers", { value := .undefined, source := .Configuration })]
    overriddenOptions := []
    warnings := [] }

/-- Claim C2, counterexample: merging an absent runtime bag into a state
holding a browsers option is not a no-op on the option set — the browsers
value is replaced by the resolved (here empty) browser array. -/
theorem c2_counterexample :
    asyncMergeOptions env0 c2cfg none =
      .ok { c2cfg with
        options := [("browsers", { value := .arr [], source := .Configuration })] } ∧
    getOption c2cfg.options "browsers" = JSVal.undefined ∧
    JSVal.undefined ≠ JSVal.arr [] :=
  ⟨rfl, rfl, fun h => JSVal.noConfusion h⟩

/-- Claim C2, amended: merging an empty or absent runtime bag records no
overrides and applies no defaults — every part of the state except the
browsers option is unchanged, and with no browsers option present the call
returns the state unchanged; when a browsers option is present, its value
(and only its value) is still re-resolved through the browser resolver, as
on every `asyncMergeOptions` call. -/
theorem c2_empty_merge (ext : Env) (cfg : TestCafeConfiguration)
    (bag : Option (List (String × JSVal))) (hbag : bag = none ∨ bag = some []) :
    (lookupOpt cfg.options "browsers" = none → asyncMergeOptions ext cfg bag = .ok cfg) ∧
    (∀ cfg2, asyncMergeOptions ext cfg bag = .ok cfg2 →
      cfg2.overriddenOptions = cfg.overriddenOptions ∧
      cfg2.warnings = cfg.warnings ∧
      cfg2.filePaths = cfg.filePaths ∧
      cfg2.isExplicitConfig = cfg.isExplicitConfig ∧
      (∀ name, name ≠ "browsers" →
        lookupOpt cfg2.options name = lookupOpt cfg.options name) ∧
      (∀ o, lookupOpt cfg.options "browsers" = some o →
        ∃ infos, getBrowserInfo ext o.value = .ok infos ∧
          lookupOpt cfg2.options "browsers" = some { o with value := .arr infos })) := by
  have hred : asyncMergeOptions ext cfg bag =
      (match lookupOpt cfg.options "browsers" with
       | none => .ok cfg
       | some browsersOption =>
         match getBrowserInfo ext browsersOption.value with
         | .error e => .error e
         | .ok infos =>
           .ok { cfg with options := setOpt cfg.options "browsers" { browsersOption with value := .arr infos } }) := by
    rcases hbag with h | h <;> subst h <;> rfl
  constructor
  · intro h; rw [hred, h]
  · intro cfg2 h2
    rw [hred] at h2
    cases hbrow : lookupOpt cfg.options "browsers" with
    | none =>
      simp only [hbrow] at h2
      have hc : cfg = cfg2 := Except.ok.inj h2
      subst hc
      exact ⟨rfl, rfl, rfl, rfl, fun _ _ => rfl, fun o ho => by simp [hbrow] at ho⟩
    | some o =>
      simp only [hbrow] at h2
      cases hres : getBrowserInfo ext o.value with
      | error e =>
        simp only [hres] at h2
        exact Except.noConfusion h2
      | ok infos =>
        simp only [hres] at h2
        have hc : ({ cfg with options := setOpt cfg.options "browsers" { o with value := .arr infos } } : TestCafeConfiguration) = cfg2 :=
          Except.ok.inj h2
        subst hc
        refine ⟨rfl, rfl, rfl, rfl, ?_, ?_⟩
        · intro name hn
          exact lookupOpt_setOpt_ne cfg.options "browsers" name _ hn
        · intro o2 ho2
          have ho3 : o = o2 := Option.some.inj ho2
          subst ho3
          exact ⟨infos, hres, lookupOpt_setOpt_self cfg.options "browsers" _⟩

/-- Claim C2, witness: a state without a browsers option is returned
unchanged by an empty merge. -/
def c2cfg2 : TestCafeConfiguration :=
  { filePaths := CONFIGURATION_FILENAMES
    isExplicitConfig := false
    options := [("speed", { value := .num 1, source := .Configuration })]
    overriddenOptions := []
    warnings := [] }

theorem c2_empty_merge_witness :
    asyncMergeOptions env0 c2cfg2 none = .ok c2cfg2 :=
  (c2_empty_merge env0 c2cfg2 none (Or.inl rfl)).1 rfl

/-- Claim C5: browser resolution preserves input order and flattens exactly
one level — a falsy (unset) browsers value resolves to the empty array, a
non-array value is treated as a one-element array by `castArray`, and when
every specifier of the cast-to-array value resolves, the result is the
in-order concatenation of the per-specifier expansions, each appearing
contiguously at its specifier's position. -/
theorem c5_browser_resolution_order (ext : Env) (v : JSVal) :
    (v.truthy = false → getBrowserInfo ext v = .ok []) ∧
    (∀ ls, v.truthy = true →
      List.Forall₂ (fun b l => ext.getBrowserInfo b = .ok l) (castArray v) ls →
      getBrowserInfo ext v = .ok ls.flatten) := by
  constructor
  · intro h; simp [getBrowserInfo, h]
  · intro ls h hls
    simp [getBrowserInfo, h, resolveAll_ok_of_forall₂ ext.getBrowserInfo _ _ hls]

/-- Claim C5, witness: the spec's example — "chrome" expanding to two
descriptors followed by "firefox" expanding to one. -/
theorem c5_browser_resolution_order_witness :
    getBrowserInfo env0 (JSVal.arr [.str "chrome", .str "firefox"]) =
      .ok [.str "chrome-desc-1", .str "chrome-desc-2", .str "firefox-desc"] :=
  (c5_browser_resolution_order env0 (JSVal.arr [.str "chrome", .str "firefox"])).2
    [[.str "chrome-desc-1", .str "chrome-desc-2"], [.str "firefox-desc"]] rfl
    (List.Forall₂.cons rfl (List.Forall₂.cons rfl List.Forall₂.nil))

/-- Claim C6: if the resolution of any single browser specifier fails, the
whole resolution — and with it the whole `asyncMergeOptions` call — fails
with the resolver's error unchanged, and no partial browser list is
produced (the call yields an error, not a state). -/
theorem c6_resolution_failure_aborts (ext : Env) :
    (∀ (v : JSVal) (pre : List JSVal) (b : JSVal) (post : List JSVal) (e : JSError),
      v.truthy = true → castArray v = pre ++ b :: post →
      (∀ x ∈ pre, ∃ l, ext.getBrowserInfo x = .ok l) →
      ext.getBrowserInfo b = .error e →
      getBrowserInfo ext v = .error e) ∧
    (∀ (cfg : TestCafeConfiguration) (bag : Option (List (String × JSVal)))
        (browsersOption : ConfigOption) (e : JSError),
      lookupOpt (mergeOptions cfg (bag.getD [])).options "browsers" = some browsersOption →
      getBrowserInfo ext browsersOption.value = .error e →
      asyncMergeOptions ext cfg bag = .error e) := by
  constructor
  · intro v pre b post e hv hcast hpre hb
    have h := resolveAll_error_first ext.getBrowserInfo pre b post e hpre hb
    simp [getBrowserInfo, hv, hcast, h]
  · intro cfg bag o e h1 h2
    simp [asyncMergeOptions, h1, h2]

/-- Claim C6, witness: a failing "bad" specifier aborts the merge with the
resolver's error. -/
def c6cfg : TestCafeConfiguration :=
  { filePaths := CONFIGURATION_FILENAMES
    isExplicitConfig := false
    options := [("browsers", { value := .str "bad", source := .Configuration })]
    overriddenOptions := []
    warnings := [] }

theorem c6_resolution_failure_aborts_witness :
    asyncMergeOptions env0 c6cfg none = .error (.externalError "cannot find the browser") :=
  (c6_resolution_failure_aborts env0).2 c6cfg none
    { value := .str "bad", source := .Configuration }
    (.externalError "cannot find the browser") rfl rfl

theorem findExistingConfigFile_none (fileSystem : List String) :
    ∀ cands : List String, (∀ f ∈ cands, f ∉ fileSystem) →
      findExistingConfigFile false fileSystem cands = .ok none := by
  intro cands
  induction cands with
  | nil => intro _; rfl
  | cons p ps ih =>
    intro h
    have hp := h p (List.mem_cons_self p ps)
    have hrest := ih (fun f hf => h f (List.mem_cons_of_mem p hf))
    simp [findExistingConfigFile, isConfigurationFileExists, hp, hrest]

/-- Claim C3: constructed with an explicit configuration path at which no
file exists, `init` fails with a configuration-file-not-found error carrying
that path; constructed with no path when no conventional configuration file
exists, `init` (with no runtime options) succeeds without error. -/
theorem c3_explicit_missing_file (ext : Env) (fileSystem : List String)
    (bag : Option (List (String × JSVal))) (p : String) :
    (p.isEmpty = false → p ∉ fileSystem →
      init ext fileSystem (TestCafeConfiguration.create p) bag =
        .error (.cannotFindConfigurationFile p)) ∧
    ((∀ f ∈ CONFIGURATION_FILENAMES, f ∉ fileSystem) →
      init ext fileSystem (TestCafeConfiguration.create "") none =
        .ok (TestCafeConfiguration.create "")) := by
  constructor
  · intro hp hc
    simp [init, TestCafeConfiguration.create, hp, findExistingConfigFile,
      isConfigurationFileExists, hc]
  · intro h
    have hfind := findExistingConfigFile_none fileSystem CONFIGURATION_FILENAMES h
    have hexp : (TestCafeConfiguration.create "").isExplicitConfig = false := rfl
    have hfp : (TestCafeConfiguration.create "").filePaths = CONFIGURATION_FILENAMES := rfl
    rw [init, hexp, hfp, hfind]
    rfl

/-- Claim C3, witness: the spec's example path "./nope.json" on an empty
file system, and the defaults-only success with no path. -/
theorem c3_explicit_missing_file_witness :
    init env0 [] (TestCafeConfiguration.create "./nope.json") none =
      .error (.cannotFindConfigurationFile "./nope.json") ∧
    init env0 [] (TestCafeConfiguration.create "") none =
      .ok (TestCafeConfiguration.create "") :=
  ⟨(c3_explicit_missing_file env0 [] none "./nope.json").1 rfl (List.not_mem_nil _),
   (c3_explicit_missing_file env0 [] none "./nope.json").2 (fun f _ => List.not_mem_nil f)⟩

/-- Claim C10: after the after-load normalization sequence has run, the
option set always contains a filter entry; when no filter was supplied, the
entry is created with value `null` and Configuration-file source, and filter
normalization leaves that `null` untouched. -/
theorem c10_filter_always_present (ext : Env) (opts : Options) :
    (lookupOpt (normalizeOptionsAfterLoad ext opts) "filter").isSome = true ∧
    (lookupOpt opts "filter" = none →
      lookupOpt (normalizeOptionsAfterLoad ext opts) "filter" =
        some { value := JSVal.null, source := OptionSource.Configuration }) := by
  have hchain : lookupOpt (normalizeOptionsAfterLoad ext opts) "filter" =
      lookupOpt (prepareFilterFn ext (prepareInitFlags (prepareSslOptions ext opts))) "filter" := by
    unfold normalizeOptionsAfterLoad
    rw [lookupOpt_prepareReportersStep_ne ext _ "filter" (by decide),
      lookupOpt_ensureArrayOption_ne _ "clientScripts" "filter" (by decide),
      lookupOpt_ensureArrayOption_ne _ "browsers" "filter" (by decide),
      lookupOpt_ensureArrayOption_ne _ "src" "filter" (by decide)]
  constructor
  · rw [hchain]
    exact lookupOpt_prepareFilterFn_isSome ext _
  · intro h
    have h1 : lookupOpt (prepareSslOptions ext opts) "filter" = none := by
      rw [lookupOpt_prepareSslOptions_ne ext opts "filter" (by decide)]
      exact h
    have h2 : lookupOpt (prepareInitFlags (prepareSslOptions ext opts)) "filter" = none := by
      rw [prepareInitFlags,
        lookupOpt_foldl_prepareFlag_notMem OPTION_INIT_FLAG_NAMES _ "filter" (by decide)]
      exact h1
    rw [hchain]
    exact lookupOpt_prepareFilterFn_absent ext _ h2

/-- Claim C10, witness: normalization of the empty option set creates the
null filter entry with Configuration-file source. -/
theorem c10_filter_always_present_witness :
    lookupOpt (normalizeOptionsAfterLoad env0 []) "filter" =
      some { value := JSVal.null, source := OptionSource.Configuration } :=
  (c10_filter_always_present env0 []).2 rfl

/-- Claim C8: the after-load normalization sequence runs exactly once and
only when a configuration file was loaded — when no file is found, `init` is
the runtime merge on the untouched state (no normalization); when a file is
found, `init` is the runtime merge on the normalized loaded store — and the
sequence performs SSL normalization, init-flag coercion, filter
normalization, array-shaping of src, browsers and clientScripts, and
reporter normalization, in that fixed order. -/
theorem c8_normalize_once_after_load (ext : Env) (fileSystem : List String)
    (cfg : TestCafeConfiguration) (bag : Option (List (String × JSVal))) :
    (findExistingConfigFile cfg.isExplicitConfig fileSystem cfg.filePaths = .ok none →
      init ext fileSystem cfg bag = asyncMergeOptions ext cfg bag) ∧
    (∀ p, findExistingConfigFile cfg.isExplicitConfig fileSystem cfg.filePaths = .ok (some p) →
      init ext fileSystem cfg bag =
        asyncMergeOptions ext
          { cfg with options := prepareReportersStep ext (ensureArrayOption (ensureArrayOption (ensureArrayOption (prepareFilterFn ext (prepareInitFlags (prepareSslOptions ext (fromObj (ext.readConfigFile p))))) "src") "browsers") "clientScripts") }
          bag) := by
  constructor
  · intro h
    rw [init, h]
  · intro p h
    rw [init, h]
    rfl

/-- Claim C8, witness: a file system holding only ".testcaferc.json". -/
def c8fs : List String := [".testcaferc.json"]

theorem c8_normalize_once_after_load_witness :
    init env0 c8fs (TestCafeConfiguration.create "") none =
      asyncMergeOptions env0
        { TestCafeConfiguration.create "" with options := prepareReportersStep env0 (ensureArrayOption (ensureArrayOption (ensureArrayOption (prepareFilterFn env0 (prepareInitFlags (prepareSslOptions env0 (fromObj (env0.readConfigFile ".testcaferc.json"))))) "src") "browsers") "clientScripts") }
        none :=
  (c8_normalize_once_after_load env0 c8fs (TestCafeConfiguration.create "") none).2
    ".testcaferc.json" rfl

/-- The option store of the C1 counterexample: pre-existing typescript
options that already define configPath, plus an external tsConfigPath. -/
def c1ceOpts : Options :=
  [("compilerOptions",
    { value := .obj [("typescript", .obj [("configPath", .str "old-path")])]
      source := .Configuration }),
   ("tsConfigPath", { value := .str "tsconfig.json", source := .Input })]

/-- Claim C1, counterexample: the claim says configPath is always set from
the external path; but with pre-existing typescript options already defining
configPath, `Object.assign({ configPath }, existing)` lets the
pre-existing value win, so the external path does not land in the merged
entry. -/
theorem c1_counterexample :
    ((getOption (prepareCompilerOptions c1ceOpts) "compilerOptions").getField
        "typescript").getField "configPath" = .str "old-path" ∧
    JSVal.str "old-path" ≠ JSVal.str "tsconfig.json" := by
  refine ⟨rfl, ?_⟩
  intro h
  injection h with h'
  exact absurd h' (by decide)

/-- Claim C1, amended: when a type-config path option is set (truthy), the
typescript entry of the compiler-options value is produced by the
non-destructive shallow merge whose base is the injected object containing
only configPath and over which the pre-existing typescript options take
override precedence for their own keys: every pre-existing typescript field
keeps its prior value, and configPath is set from the external path whenever
the pre-existing options did not already define configPath. -/
theorem c1_compiler_options_merge (opts : Options) (co ts : List (String × JSVal))
    (s : OptionSource) (tsp : JSVal)
    (hco : lookupOpt opts "compilerOptions" = some { value := .obj co, source := s })
    (hts : getFieldList co "typescript" = .obj ts)
    (hnd : (ts.map Prod.fst).Nodup)
    (hpath : getOption opts "tsConfigPath" = tsp)
    (htruthy : tsp.truthy = true) :
    ((getOption (prepareCompilerOptions opts) "compilerOptions").getField "typescript").objFields
        = objAssign [("configPath", tsp)] ts ∧
    (∀ k v, (k, v) ∈ ts →
      ((getOption (prepareCompilerOptions opts) "compilerOptions").getField "typescript").getField k
        = v) ∧
    ("configPath" ∉ ts.map Prod.fst →
      ((getOption (prepareCompilerOptions opts) "compilerOptions").getField
          "typescript").getField "configPath" = tsp) := by
  have hmain : (getOption (prepareCompilerOptions opts) "compilerOptions").getField "typescript"
      = .obj (objAssign [("configPath", tsp)] ts) := by
    unfold prepareCompilerOptions ensureOption
    simp only [hco]
    rw [show getOption opts "tsConfigPath" = tsp from hpath]
    simp only [show (JSVal.obj co).truthy = true from rfl, htruthy, if_true,
      JSVal.getField, hts, JSVal.objFields, JSVal.setObjField, getOption,
      lookupOpt_setOpt_self]
    exact getFieldList_setFieldList_self co "typescript" _
  refine ⟨by rw [hmain]; rfl, ?_, ?_⟩
  · intro k v hm
    rw [hmain]
    exact getFieldList_objAssign_mem ts [("configPath", tsp)] k v hnd hm
  · intro hnm
    rw [hmain]
    show getFieldList (objAssign [("configPath", tsp)] ts) "configPath" = tsp
    rw [getFieldList_objAssign_notMem ts [("configPath", tsp)] "configPath" hnm]
    rfl

/-- The option store of the C1 witness: the spec's example, pre-existing
typescript options with strict true and external path "tsconfig.json". -/
def c1wOpts : Options :=
  [("compilerOptions",
    { value := .obj [("typescript", .obj [("strict", .bool true)])]
      source := .Configuration }),
   ("tsConfigPath", { value := .str "tsconfig.json", source := .Input })]

theorem c1_compiler_options_merge_witness :
    ((getOption (prepareCompilerOptions c1wOpts) "compilerOptions").getField
        "typescript").getField "strict" = .bool true ∧
    ((getOption (prepareCompilerOptions c1wOpts) "compilerOptions").getField
        "typescript").getField "configPath" = .str "tsconfig.json" :=
  ⟨(c1_compiler_options_merge c1wOpts
      [("typescript", .obj [("strict", .bool true)])] [("strict", .bool true)]
      .Configuration (.str "tsconfig.json") rfl rfl (by simp) rfl rfl).2.1
      "strict" (.bool true) (by simp),
   (c1_compiler_options_merge c1wOpts
      [("typescript", .obj [("strict", .bool true)])] [("strict", .bool true)]
      .Configuration (.str "tsconfig.json") rfl rfl (by simp) rfl rfl).2.2
      (by simp)⟩

/-- The option store of the C9 counterexample: a screenshots object whose
path is defined but empty (falsy). -/
def c9ceOpts : Options :=
  [("screenshots", { value := .obj [("path", .str "")], source := .Configuration })]

/-- Claim C9, counterexample: the claim says preparation fills path only if
path is missing and leaves every defined field unchanged; but a defined,
falsy path (the empty string) is overwritten with the computed default,
because the source tests truthiness, not presence. -/
theorem c9_counterexample :
    (getOption c9ceOpts "screenshots").getField "path" = .str "" ∧
    (getOption (ensureScreenshotOptions env0 c9ceOpts) "screenshots").getField "path" =
      .str "/cwd/screenshots" ∧
    JSVal.str "" ≠ JSVal.str "/cwd/screenshots" := by
  refine ⟨rfl, rfl, ?_⟩
  intro h
  injection h with h'
  exact absurd h' (by decide)

/-- Claim C9, amended: screenshots default fill keeps partial-fill semantics
(never whole-object replacement): for a pre-existing screenshots object,
path is filled with the resolved default directory exactly when the current
path is falsy (missing, or present but falsy such as the empty string),
thumbnails is filled with the default flag exactly when it is undefined, and
every other field keeps its prior value, as does the option's source; when
the option is unset, a fresh object with both defaults is created at
Configuration-file source. -/
theorem c9_screenshot_defaults (ext : Env) (opts : Options) :
    (∀ fs s, lookupOpt opts "screenshots" = some { value := .obj fs, source := s } →
      ((getOption (ensureScreenshotOptions ext opts) "screenshots").getField "path" =
        if (getFieldList fs "path").truthy then getFieldList fs "path"
        else .str (ext.resolvePathRelativelyCwd DEFAULT_SCREENSHOTS_DIRECTORY)) ∧
      ((getOption (ensureScreenshotOptions ext opts) "screenshots").getField "thumbnails" =
        if (getFieldList fs "thumbnails").isUndefined then DEFAULT_SCREENSHOT_THUMBNAILS
        else getFieldList fs "thumbnails") ∧
      (∀ k, k ≠ "path" → k ≠ "thumbnails" →
        (getOption (ensureScreenshotOptions ext opts) "screenshots").getField k =
          getFieldList fs k) ∧
      (lookupOpt (ensureScreenshotOptions ext opts) "screenshots").map ConfigOption.source =
        some s) ∧
    (lookupOpt opts "screenshots" = none →
      lookupOpt (ensureScreenshotOptions ext opts) "screenshots" =
        some { value := .obj [("path", .str (ext.resolvePathRelativelyCwd DEFAULT_SCREENSHOTS_DIRECTORY)), ("thumbnails", DEFAULT_SCREENSHOT_THUMBNAILS)], source := OptionSource.Configuration }) := by
  constructor
  · intro fs s h
    have hthumb : ∀ w, getFieldList (setFieldList fs "path" w) "thumbnails" =
        getFieldList fs "thumbnails" :=
      fun w => getFieldList_setFieldList_ne fs "path" "thumbnails" w (by decide)
    have hpathne : ∀ w, getFieldList (setFieldList fs "thumbnails" w) "path" =
        getFieldList fs "path" :=
      fun w => getFieldList_setFieldList_ne fs "thumbnails" "path" w (by decide)
    by_cases hp : (getFieldList fs "path").truthy = true
    · by_cases ht : (getFieldList fs "thumbnails").isUndefined = true
      · have hval : ensureScreenshotOptions ext opts =
            setOpt opts "screenshots" { value := .obj (setFieldList fs "thumbnails" DEFAULT_SCREENSHOT_THUMBNAILS), source := s } := by
          unfold ensureScreenshotOptions ensureOption
          simp [h, JSVal.getField, JSVal.setObjField, hp, ht]
        refine ⟨?_, ?_, ?_, ?_⟩
        · rw [hval]
          simp [getOption, lookupOpt_setOpt_self, JSVal.getField, hp, hpathne]
        · rw [hval]
          simp [getOption, lookupOpt_setOpt_self, JSVal.getField, ht,
            getFieldList_setFieldList_self]
        · intro k hk1 hk2
          rw [hval]
          simp only [getOption, lookupOpt_setOpt_self, JSVal.getField]
          exact getFieldList_setFieldList_ne fs "thumbnails" k _ hk2
        · rw [hval, lookupOpt_setOpt_self]
          rfl
      · have hval : ensureScreenshotOptions ext opts =
            setOpt opts "screenshots" { value := .obj fs, source := s } := by
          unfold ensureScreenshotOptions ensureOption
          simp [h, JSVal.getField, JSVal.setObjField, hp, ht]
        refine ⟨?_, ?_, ?_, ?_⟩
        · rw [hval]
          simp [getOption, lookupOpt_setOpt_self, JSVal.getField, hp]
        · rw [hval]
          simp [getOption, lookupOpt_setOpt_self, JSVal.getField, ht]
        · intro k hk1 hk2
          rw [hval]
          simp only [getOption, lookupOpt_setOpt_self, JSVal.getField]
        · rw [hval, lookupOpt_setOpt_self]
          rfl
    · have hp0 : (getFieldList fs "path").truthy = false := by
        rwa [Bool.not_eq_true] at hp
      by_cases ht : (getFieldList fs "thumbnails").isUndefined = true
      · have hval : ensureScreenshotOptions ext opts =
            setOpt opts "screenshots" { value := .obj (setFieldList (setFieldList fs "path" (.str (ext.resolvePathRelativelyCwd DEFAULT_SCREENSHOTS_DIRECTORY))) "thumbnails" DEFAULT_SCREENSHOT_THUMBNAILS), source := s } := by
          unfold ensureScreenshotOptions ensureOption
          simp [h, JSVal.getField, JSVal.setObjField, hp0, hthumb, ht]
        refine ⟨?_, ?_, ?_, ?_⟩
        · rw [hval]
          simp only [getOption, lookupOpt_setOpt_self, JSVal.getField, hp0, if_false,
            Bool.false_eq_true]
          rw [getFieldList_setFieldList_ne _ "thumbnails" "path" _ (by decide),
            getFieldList_setFieldList_self]
        · rw [hval]
          simp [getOption, lookupOpt_setOpt_self, JSVal.getField, ht,
            getFieldList_setFieldList_self]
        · intro k hk1 hk2
          rw [hval]
          simp only [getOption, lookupOpt_setOpt_self, JSVal.getField]
          rw [getFieldList_setFieldList_ne _ "thumbnails" k _ hk2,
            getFieldList_setFieldList_ne _ "path" k _ hk1]
        · rw [hval, lookupOpt_setOpt_self]
          rfl
      · have hval : ensureScreenshotOptions ext opts =
            setOpt opts "screenshots" { value := .obj (setFieldList fs "path" (.str (ext.resolvePathRelativelyCwd DEFAULT_SCREENSHOTS_DIRECTORY))), source := s } := by
          unfold ensureScreenshotOptions ensureOption
          simp [h, JSVal.getField, JSVal.setObjField, hp0, hthumb, ht]
        refine ⟨?_, ?_, ?_, ?_⟩
        · rw [hval]
          simp only [getOption, lookupOpt_setOpt_self, JSVal.getField, hp0, if_false,
            Bool.false_eq_true]
          exact getFieldList_setFieldList_self fs "path" _
        · rw [hval]
          simp [getOption, lookupOpt_setOpt_self, JSVal.getField, ht, hthumb]
        · intro k hk1 hk2
          rw [hval]
          simp only [getOption, lookupOpt_setOpt_self, JSVal.getField]
          exact getFieldList_setFieldList_ne fs "path" k _ hk1
        · rw [hval, lookupOpt_setOpt_self]
          rfl
  · intro h
    unfold ensureScreenshotOptions ensureOption
    simp [h, JSVal.getField, getFieldList, JSVal.truthy, JSVal.isUndefined,
      JSVal.setObjField, setFieldList, lookupOpt_setOpt_self]

/-- The option store of the C9 witness: the spec's example, thumbnails
pre-set to false. -/
def c9wOpts : Options :=
  [("screenshots", { value := .obj [("thumbnails", .bool false)], source := .Configuration })]

theorem c9_screenshot_defaults_witness :
    (getOption (ensureScreenshotOptions env0 c9wOpts) "screenshots").getField "path" =
      .str "/cwd/screenshots" ∧
    (getOption (ensureScreenshotOptions env0 c9wOpts) "screenshots").getField "thumbnails" =
      .bool false :=
  ⟨((c9_screenshot_defaults env0 c9wOpts).1 [("thumbnails", .bool false)] .Configuration rfl).1,
   ((c9_screenshot_defaults env0 c9wOpts).1 [("thumbnails", .bool false)] .Configuration rfl).2.1⟩

end Testcafe
